import Mathlib

/-
Verification of the order-placement and product-listing core of the
e-commerce backend (the Express service embedded in src/backend/init.sql).

Modelling conventions:
- DECIMAL(10,2) money amounts are modelled as integer cents (Int).
- The relational store is a record of row lists; SERIAL ids are modelled by
  an explicit next-id counter.
- The Redis cache holds at most the single fixed key "products"; it is
  modelled as an Option carrying the serialized payload and the TTL passed
  to setEx. Redis expires entries itself, so "entry present" means
  "present and unexpired".
- Each potentially-failing external await (redis get, setEx, del) gets a
  Boolean success flag; a false flag means that await rejected, which in
  the code transfers control to the enclosing catch block.
- HTTP responses are modelled by small result types carrying the status
  code and payload.
-/

namespace ECommerce

/-- One row of the products table: id, name, description, price (cents),
stock, image_url, created_at (modelled as a Nat timestamp). -/
structure Product where
  id : Nat
  name : String
  descr : String
  price : Int
  stock : Int
  imageUrl : String
  createdAt : Nat
  deriving DecidableEq

/-- One row of the orders table. -/
structure OrderRow where
  id : Nat
  userId : Int
  status : String
  total : Int
  deriving DecidableEq

/-- One row of the order_items table. -/
structure OrderItemRow where
  orderId : Nat
  productId : Nat
  quantity : Int
  price : Int
  deriving DecidableEq

/-- The relational store. -/
structure Db where
  products : List Product
  orders : List OrderRow
  orderItems : List OrderItemRow
  nextOrderId : Nat
  deriving DecidableEq

/-- The value stored under the fixed cache key: the serialized product rows
and the TTL handed to setEx. -/
structure CacheEntry where
  payload : List Product
  ttl : Nat
  deriving DecidableEq

/-- Store plus cache. -/
structure SysState where
  db : Db
  cache : Option CacheEntry
  deriving DecidableEq

/-- One line item of an order request body. -/
structure LineItem where
  product_id : Nat
  quantity : Int
  deriving DecidableEq

/-- The POST /api/orders request body; a missing items field is none
(destructuring an absent field yields undefined in the code). -/
structure OrderReq where
  user_id : Int
  items : Option (List LineItem)
  deriving DecidableEq

/-- The SELECT price FROM products WHERE id = $1 lookup; rows[0] of the
result, none when the result set is empty. -/
def findProduct (prods : List Product) (pid : Nat) : Option Product :=
  prods.find? (fun p => p.id == pid)

/-- Outcome of POST /api/orders: 201 with orderId and total, or an error
status (the catch block sends 500). -/
inductive PostResult where
  | created (orderId : Nat) (total : Int)
  | error (status : Nat)
  deriving DecidableEq

/-- HTTP status code of a POST outcome. -/
def PostResult.status : PostResult → Nat
  | .created _ _ => 201
  | .error s => s

/-- The for-of loop over items in the order handler: for each line item it
looks up the product row, throws (error) when rows[0] is undefined,
accumulates price * quantity into the running total and appends the
order_items insert. -/
def runItems (prods : List Product) (orderId : Nat) :
    List LineItem → Int → List OrderItemRow → Except Unit (Int × List OrderItemRow)
  | [], total, acc => .ok (total, acc)
  | it :: rest, total, acc =>
    match findProduct prods it.product_id with
    | none => .error ()
    | some p =>
        runItems prods orderId rest (total + p.price * it.quantity)
          (acc ++ [⟨orderId, it.product_id, it.quantity, p.price⟩])

/-- The POST /api/orders handler. BEGIN; insert the order with total 0 and
status pending; run the item loop; update the total; COMMIT; then await
redisClient.del. Any throw before COMMIT reaches the catch, which runs
ROLLBACK (so the pre-state is restored) and sends 500. A del rejection
after COMMIT also reaches the catch: the ROLLBACK there is a no-op outside
a transaction, so the committed rows survive, but the response is 500.
The delOk flag tells whether the del await succeeds. -/
def createOrder (st : SysState) (req : OrderReq) (delOk : Bool) :
    SysState × PostResult :=
  match req.items with
  | none => (st, .error 500)
  | some items =>
    match runItems st.db.products st.db.nextOrderId items 0 [] with
    | .error _ => (st, .error 500)
    | .ok (total, rows) =>
      let db' : Db :=
        { st.db with
          orders := st.db.orders ++ [⟨st.db.nextOrderId, req.user_id, "pending", total⟩]
          orderItems := st.db.orderItems ++ rows
          nextOrderId := st.db.nextOrderId + 1 }
      if delOk then
        ({ db := db', cache := none }, .created st.db.nextOrderId total)
      else
        ({ db := db', cache := st.cache }, .error 500)

/-- Insert a product into a list kept in descending created_at order. -/
def insertDesc (p : Product) : List Product → List Product
  | [] => [p]
  | q :: rest =>
    if p.createdAt ≤ q.createdAt then q :: insertDesc p rest
    else p :: q :: rest

/-- Sort products by created_at descending (insertion sort). -/
def sortByCreatedDesc : List Product → List Product
  | [] => []
  | p :: rest => insertDesc p (sortByCreatedDesc rest)

/-- The store query of the read path: SELECT ... FROM products WHERE
stock > 0 ORDER BY created_at DESC. -/
def storeQuery (prods : List Product) : List Product :=
  sortByCreatedDesc (prods.filter (fun p => 0 < p.stock))

/-- Outcome payload of GET /api/products: 200 with rows, or an error
status (the catch block sends 500). -/
inductive GetResult where
  | rows (payload : List Product)
  | error (status : Nat)
  deriving DecidableEq

/-- Full outcome of a GET /api/products call: resulting state, response,
and whether the store was queried during the call. -/
structure GetOutcome where
  state : SysState
  resp : GetResult
  storeQueried : Bool
  deriving DecidableEq

/-- The GET /api/products handler. Await redisClient.get (a rejection goes
to the catch, which sends 500, before any store query); on a hit return
the cached payload; on a miss query the store, await setEx with TTL 300
(a rejection goes to the catch, which sends 500, after the store query),
then send the fresh rows. -/
def getProducts (st : SysState) (getOk setOk : Bool) : GetOutcome :=
  if getOk then
    match st.cache with
    | some entry => ⟨st, .rows entry.payload, false⟩
    | none =>
      let result := storeQuery st.db.products
      if setOk then ⟨{ st with cache := some ⟨result, 300⟩ }, .rows result, true⟩
      else ⟨st, .error 500, true⟩
  else ⟨st, .error 500, false⟩

/-- The unit price the handler reads for a product id, defaulting to 0
when absent (only used under a hypothesis that the product exists, or
multiplied into terms where the default is irrelevant). -/
def priceOf (prods : List Product) (pid : Nat) : Int :=
  ((findProduct prods pid).map Product.price).getD 0

/-- The server-computed order total: sum over lines of current unit price
times quantity. -/
def specTotal (prods : List Product) (items : List LineItem) : Int :=
  (items.map (fun it => priceOf prods it.product_id * it.quantity)).sum

/-- The order_items rows the handler inserts for a request. -/
def specRows (prods : List Product) (orderId : Nat) (items : List LineItem) :
    List OrderItemRow :=
  items.map (fun it => ⟨orderId, it.product_id, it.quantity, priceOf prods it.product_id⟩)

/-- A sample catalog row (the wireless mouse of the seed data, price in
cents). -/
def prod1 : Product := ⟨1, "Mouse", "Wireless ergonomic mouse", 2999, 50, "/mouse.jpg", 5⟩

/-- Initial sample state: one product, empty orders, empty cache. -/
def st0 : SysState := ⟨⟨[prod1], [], [], 1⟩, none⟩

/-- A valid order request: user 7 buys three units of product 1. -/
def req1 : OrderReq := ⟨7, some [⟨1, 3⟩]⟩

/-- A request referencing a nonexistent product id. -/
def reqBadProduct : OrderReq := ⟨7, some [⟨999, 1⟩]⟩

/-- A malformed request: non-positive quantity. -/
def reqNegQty : OrderReq := ⟨7, some [⟨1, -3⟩]⟩

/-- A malformed request: missing items field. -/
def reqNoItems : OrderReq := ⟨7, none⟩

/-- A request with an empty items list. -/
def reqEmpty : OrderReq := ⟨7, some []⟩

/-- The state after req1 succeeds against st0. -/
def stAfter : SysState :=
  ⟨⟨[prod1], [⟨1, 7, "pending", 8997⟩], [⟨1, 1, 3, 2999⟩], 2⟩, none⟩

/-- When every requested product exists, the item loop returns the
accumulated total plus the spec sum, and appends exactly the spec rows. -/
theorem runItems_ok (prods : List Product) (orderId : Nat) (items : List LineItem)
    (total : Int) (acc : List OrderItemRow)
    (h : ∀ it ∈ items, (findProduct prods it.product_id).isSome) :
    runItems prods orderId items total acc =
      .ok (total + specTotal prods items, acc ++ specRows prods orderId items) := by
  induction items generalizing total acc with
  | nil => simp [runItems, specTotal, specRows]
  | cons it rest ih =>
    have hit : (findProduct prods it.product_id).isSome := h it (by simp)
    obtain ⟨p, hp⟩ := Option.isSome_iff_exists.mp hit
    simp only [runItems, hp]
    rw [ih _ _ (fun x hx => h x (List.mem_cons_of_mem _ hx))]
    simp [specTotal, specRows, priceOf, hp, List.append_assoc, add_assoc]

/-- When some requested product is missing, the item loop throws. -/
theorem runItems_error (prods : List Product) (orderId : Nat) (items : List LineItem)
    (total : Int) (acc : List OrderItemRow)
    (h : ∃ it ∈ items, findProduct prods it.product_id = none) :
    runItems prods orderId items total acc = .error () := by
  induction items generalizing total acc with
  | nil => simp at h
  | cons it rest ih =>
    obtain ⟨x, hx, hnone⟩ := h
    rcases List.mem_cons.mp hx with rfl | hmem
    · simp [runItems, hnone]
    · cases hfind : findProduct prods it.product_id with
      | none => simp [runItems, hfind]
      | some p =>
        simp only [runItems, hfind]
        exact ih _ _ ⟨x, hmem, hnone⟩

/-- Inversion: a successful run of the item loop means every product was
found, and characterizes the total and the inserted rows. -/
theorem runItems_ok_inv (prods : List Product) (orderId : Nat) (items : List LineItem)
    (total : Int) (acc : List OrderItemRow) (t : Int) (rs : List OrderItemRow)
    (h : runItems prods orderId items total acc = .ok (t, rs)) :
    (∀ it ∈ items, (findProduct prods it.product_id).isSome) ∧
      t = total + specTotal prods items ∧
      rs = acc ++ specRows prods orderId items := by
  induction items generalizing total acc with
  | nil =>
    simp only [runItems, Except.ok.injEq, Prod.mk.injEq] at h
    refine ⟨by simp, ?_, ?_⟩ <;> simp [specTotal, specRows, h.1.symm, h.2.symm]
  | cons it rest ih =>
    cases hfind : findProduct prods it.product_id with
    | none => simp [runItems, hfind] at h
    | some p =>
      simp only [runItems, hfind] at h
      obtain ⟨hall, ht, hrs⟩ := ih _ _ h
      refine ⟨?_, ?_, ?_⟩
      · intro x hx
        rcases List.mem_cons.mp hx with rfl | hmem
        · simp [hfind]
        · exact hall x hmem
      · rw [ht]; simp [specTotal, priceOf, hfind]; ring
      · rw [hrs]; simp [specRows, priceOf, hfind]

/-- Membership in an ordered insert. -/
theorem mem_insertDesc (a p : Product) (l : List Product) :
    a ∈ insertDesc p l ↔ a = p ∨ a ∈ l := by
  induction l with
  | nil => simp [insertDesc]
  | cons q rest ih =>
    by_cases hc : p.createdAt ≤ q.createdAt
    · simp only [insertDesc, if_pos hc, List.mem_cons, ih]
      tauto
    · simp only [insertDesc, if_neg hc, List.mem_cons]

/-- Membership is preserved by the sort. -/
theorem mem_sortByCreatedDesc (a : Product) (l : List Product) :
    a ∈ sortByCreatedDesc l ↔ a ∈ l := by
  induction l with
  | nil => simp [sortByCreatedDesc]
  | cons p rest ih => simp [sortByCreatedDesc, mem_insertDesc, ih]

/-- The result list is ordered by created_at descending. -/
def DescByCreated (l : List Product) : Prop :=
  l.Pairwise (fun a b => b.createdAt ≤ a.createdAt)

/-- Ordered insert preserves the descending order. -/
theorem insertDesc_desc (p : Product) (l : List Product) (h : DescByCreated l) :
    DescByCreated (insertDesc p l) := by
  induction l with
  | nil => simp [insertDesc, DescByCreated]
  | cons q rest ih =>
    rw [DescByCreated, List.pairwise_cons] at h
    obtain ⟨hq, hrest⟩ := h
    by_cases hc : p.createdAt ≤ q.createdAt
    · rw [DescByCreated]
      simp only [insertDesc, if_pos hc]
      rw [List.pairwise_cons]
      refine ⟨?_, ih hrest⟩
      intro b hb
      rcases (mem_insertDesc b p rest).mp hb with rfl | hmem
      · exact hc
      · exact hq b hmem
    · rw [DescByCreated]
      simp only [insertDesc, if_neg hc]
      rw [List.pairwise_cons]
      refine ⟨?_, ?_⟩
      · intro b hb
        rcases List.mem_cons.mp hb with rfl | hmem
        · omega
        · have := hq b hmem; omega
      · rw [List.pairwise_cons]; exact ⟨hq, hrest⟩

/-- The sort produces a list ordered by created_at descending. -/
theorem sortByCreatedDesc_desc (l : List Product) :
    DescByCreated (sortByCreatedDesc l) := by
  induction l with
  | nil => simp [sortByCreatedDesc, DescByCreated]
  | cons p rest ih => exact insertDesc_desc p _ ih

/-- The store query returns exactly the in-stock products. -/
theorem mem_storeQuery (a : Product) (prods : List Product) :
    a ∈ storeQuery prods ↔ a ∈ prods ∧ 0 < a.stock := by
  rw [storeQuery, mem_sortByCreatedDesc, List.mem_filter]
  simp

/-- C1: for an order request whose line items all reference existing
products (and whose post-commit cache delete succeeds), the handler
appends exactly one Order row whose total is the sum over lines of current
unit price times quantity, appends exactly one OrderItem row per line (the
spec rows, so one per line item in request order), and responds with
status 201 carrying the new order id and that total. -/
theorem c1_create_order_valid (st : SysState) (req : OrderReq) (items : List LineItem)
    (hitems : req.items = some items)
    (hex : ∀ it ∈ items, (findProduct st.db.products it.product_id).isSome) :
    (createOrder st req true).1.db.orders =
      st.db.orders ++
        [⟨st.db.nextOrderId, req.user_id, "pending", specTotal st.db.products items⟩] ∧
    (createOrder st req true).1.db.orderItems =
      st.db.orderItems ++ specRows st.db.products st.db.nextOrderId items ∧
    (createOrder st req true).1.db.orderItems.length =
      st.db.orderItems.length + items.length ∧
    (createOrder st req true).2 =
      .created st.db.nextOrderId (specTotal st.db.products items) ∧
    (createOrder st req true).2.status = 201 := by
  have hrun := runItems_ok st.db.products st.db.nextOrderId items 0 [] hex
  simp only [createOrder, hitems, hrun, zero_add, List.nil_append, if_pos]
  simp [specRows, PostResult.status]

/-- C1 witness: user 7 orders three units of product 1 (price 2999 cents)
against st0; the handler responds 201 with order id 1 and total 8997. -/
theorem c1_witness : (createOrder st0 req1 true).2 = .created 1 8997 := by
  rw [(c1_create_order_valid st0 req1 [⟨1, 3⟩] rfl (by decide)).2.2.2.1]
  decide

/-- C2 counterexample: a request referencing nonexistent product id 999 is
fully rolled back, but the response status is 500, which is a server
error, not a client error (a client error has a 4xx status). -/
theorem c2_counterexample :
    createOrder st0 reqBadProduct true = (st0, .error 500) ∧
    ¬ (400 ≤ (createOrder st0 reqBadProduct true).2.status ∧
        (createOrder st0 reqBadProduct true).2.status < 500) := by
  refine ⟨by rfl, by decide⟩

/-- C2 (amended): when some line item references a nonexistent product id,
the whole transaction is rolled back, so the state is unchanged (no Order
and no OrderItem row is persisted), and the failure is surfaced to the
caller as a 500 server error rather than a client error. -/
theorem c2_rollback_on_missing_product (st : SysState) (req : OrderReq)
    (items : List LineItem) (delOk : Bool)
    (hitems : req.items = some items)
    (hmiss : ∃ it ∈ items, findProduct st.db.products it.product_id = none) :
    createOrder st req delOk = (st, .error 500) := by
  have hrun := runItems_error st.db.products st.db.nextOrderId items 0 [] hmiss
  simp [createOrder, hitems, hrun]

/-- C2 witness: the request for product 999 against st0 leaves the state
untouched and yields the 500 response. -/
theorem c2_witness : createOrder st0 reqBadProduct true = (st0, .error 500) :=
  c2_rollback_on_missing_product st0 reqBadProduct [⟨999, 1⟩] true rfl (by decide)

/-- C3 (code bug): when the post-commit redisClient.del await rejects, the
committed order survives (the catch runs a no-op ROLLBACK outside any
transaction), but the handler answers 500 instead of the 201 success
response the claim and the spec require. Evaluated on a valid one-line
order against st0 with the del failing. -/
theorem c3_del_failure_fails_response :
    (createOrder st0 req1 false).1.db.orders = [⟨1, 7, "pending", 8997⟩] ∧
    (createOrder st0 req1 false).1.db.orderItems = [⟨1, 1, 3, 2999⟩] ∧
    (createOrder st0 req1 false).2 = .error 500 ∧
    (createOrder st0 req1 false).2.status ≠ 201 := by
  refine ⟨by rfl, by rfl, by rfl, by decide⟩

/-- C4 (code bug): the whole read path sits in one try block, so a
rejecting cache await fails the read instead of falling back to the store.
Evaluated against st0 (empty cache): a failing redisClient.get yields 500
without ever querying the store, and a failing setEx yields 500 even
though the store rows were already in hand. -/
theorem c4_cache_failure_fails_read :
    (getProducts st0 false true).resp = .error 500 ∧
    (getProducts st0 false true).storeQueried = false ∧
    (getProducts st0 true false).resp = .error 500 ∧
    (getProducts st0 true false).storeQueried = true := by
  refine ⟨by rfl, by rfl, by rfl, by rfl⟩

/-- C5: on a cache miss (with both cache awaits succeeding), the handler
queries the store, caches the serialized rows under the fixed key with TTL
300, and returns the fresh rows; those rows are exactly the products with
stock strictly greater than zero, ordered by created_at descending. -/
theorem c5_miss_path (st : SysState) (hmiss : st.cache = none) :
    getProducts st true true =
      ⟨⟨st.db, some ⟨storeQuery st.db.products, 300⟩⟩,
        .rows (storeQuery st.db.products), true⟩ ∧
    (∀ p, p ∈ storeQuery st.db.products ↔ p ∈ st.db.products ∧ 0 < p.stock) ∧
    DescByCreated (storeQuery st.db.products) := by
  refine ⟨?_, fun p => mem_storeQuery p st.db.products, sortByCreatedDesc_desc _⟩
  simp [getProducts, hmiss]

/-- C5 witness: a read against st0 (empty cache, one in-stock product)
returns the single product row and fills the cache with it under TTL 300. -/
theorem c5_witness :
    (getProducts st0 true true).resp = .rows [prod1] ∧
    (getProducts st0 true true).state.cache = some ⟨[prod1], 300⟩ := by
  have h := (c5_miss_path st0 rfl).1
  rw [h]
  exact ⟨by decide, by decide⟩

/-- C6: on a cache hit the handler returns the cached payload unchanged,
queries no store, leaves the state untouched, and the response does not
depend on the store contents at all: two reads against the same cache
entry but different store states return the same payload. -/
theorem c6_hit_path (db db2 : Db) (e : CacheEntry) (setOk : Bool) :
    getProducts ⟨db, some e⟩ true setOk = ⟨⟨db, some e⟩, .rows e.payload, false⟩ ∧
    (getProducts ⟨db, some e⟩ true setOk).resp =
      (getProducts ⟨db2, some e⟩ true setOk).resp := by
  exact ⟨rfl, rfl⟩

/-- C7 (code bug): the handler performs no request validation. A line item
with negative quantity -3 is committed and answered 201 (with a negative
total), and a request with a missing items field still opens the
transaction and ends in a 500 server error, not a 4xx client error. -/
theorem c7_no_validation :
    (createOrder st0 reqNegQty true).2 = .created 1 (-8997) ∧
    (createOrder st0 reqNegQty true).1.db.orderItems = [⟨1, 1, -3, 2999⟩] ∧
    (createOrder st0 reqNegQty true).1.db.orders = [⟨1, 7, "pending", -8997⟩] ∧
    (createOrder st0 reqNoItems true).2 = .error 500 ∧
    ¬ (400 ≤ (createOrder st0 reqNoItems true).2.status ∧
        (createOrder st0 reqNoItems true).2.status < 500) := by
  refine ⟨by rfl, by rfl, by rfl, by rfl, by decide⟩

/-- The row invariant claimed for the store: every persisted order has a
non-negative total and every persisted order item a positive quantity. -/
def DbInvariant (db : Db) : Prop :=
  (∀ o ∈ db.orders, 0 ≤ o.total) ∧ (∀ i ∈ db.orderItems, 0 < i.quantity)

/-- With a non-negative catalog and positive quantities, the computed
total is non-negative. -/
theorem specTotal_nonneg (prods : List Product) (items : List LineItem)
    (hprices : ∀ p ∈ prods, 0 ≤ p.price)
    (hqty : ∀ it ∈ items, 0 < it.quantity) :
    0 ≤ specTotal prods items := by
  induction items with
  | nil => simp [specTotal]
  | cons it rest ih =>
    have h1 : 0 ≤ priceOf prods it.product_id := by
      rw [priceOf]
      cases hfind : findProduct prods it.product_id with
      | none => simp
      | some p =>
        simp only [Option.map_some', Option.getD_some]
        exact hprices p (List.mem_of_find?_eq_some hfind)
    have h2 : 0 ≤ it.quantity := le_of_lt (hqty it (by simp))
    have h3 := ih (fun x hx => hqty x (List.mem_cons_of_mem _ hx))
    simp only [specTotal, List.map_cons, List.sum_cons]
    have h4 := mul_nonneg h1 h2
    rw [specTotal] at h3
    linarith

/-- C8 counterexample: the request with quantity -3 persists an Order row
with negative total -8997 and an OrderItem row with non-positive quantity
-3, so the claimed invariant fails for arbitrary request contents. -/
theorem c8_counterexample :
    (⟨1, 7, "pending", -8997⟩ : OrderRow) ∈ (createOrder st0 reqNegQty true).1.db.orders ∧
    ¬ (0 ≤ (-8997 : Int)) ∧
    (⟨1, 1, -3, 2999⟩ : OrderItemRow) ∈ (createOrder st0 reqNegQty true).1.db.orderItems ∧
    ¬ (0 < (-3 : Int)) := by
  refine ⟨by decide, by decide, by decide, by decide⟩

/-- C8 (amended): the invariant holds only conditionally: provided the
catalog prices are non-negative and every line item of the request has
positive quantity, the order handler preserves the invariant that all
Order totals are non-negative and all OrderItem quantities positive; a
request containing a non-positive quantity can violate it. -/
theorem c8_invariant_preserved (st : SysState) (req : OrderReq) (delOk : Bool)
    (hprices : ∀ p ∈ st.db.products, 0 ≤ p.price)
    (hqty : ∀ it ∈ req.items.getD [], 0 < it.quantity)
    (hinv : DbInvariant st.db) :
    DbInvariant (createOrder st req delOk).1.db := by
  cases hitems : req.items with
  | none => simpa [createOrder, hitems] using hinv
  | some items =>
    rw [hitems, Option.getD_some] at hqty
    cases hrun : runItems st.db.products st.db.nextOrderId items 0 [] with
    | error e => simpa [createOrder, hitems, hrun] using hinv
    | ok pr =>
      obtain ⟨t, rs⟩ := pr
      obtain ⟨hall, ht, hrs⟩ := runItems_ok_inv _ _ _ _ _ _ _ hrun
      have htotal : 0 ≤ t := by
        rw [ht, zero_add]
        exact specTotal_nonneg _ _ hprices hqty
      have hrows : ∀ i ∈ rs, 0 < i.quantity := by
        rw [hrs]
        intro i hi
        simp only [List.nil_append, specRows, List.mem_map] at hi
        obtain ⟨it, hit, rfl⟩ := hi
        exact hqty it hit
      have hdb : (createOrder st req delOk).1.db =
          { st.db with
            orders := st.db.orders ++ [⟨st.db.nextOrderId, req.user_id, "pending", t⟩]
            orderItems := st.db.orderItems ++ rs
            nextOrderId := st.db.nextOrderId + 1 } := by
        cases delOk <;> simp [createOrder, hitems, hrun]
      rw [hdb]
      refine ⟨?_, ?_⟩
      · intro o hmem
        rcases List.mem_append.mp hmem with hmo | hmo
        · exact hinv.1 o hmo
        · have ho : o = ⟨st.db.nextOrderId, req.user_id, "pending", t⟩ := by
            simpa using hmo
          rw [ho]
          exact htotal
      · intro i hmem
        rcases List.mem_append.mp hmem with hmi | hmi
        · exact hinv.2 i hmi
        · exact hrows i hmi

/-- C8 witness: the valid order req1 (quantity 3) against st0 (prices
non-negative, no prior rows) preserves the invariant. -/
theorem c8_witness : DbInvariant (createOrder st0 req1 true).1.db := by
  refine c8_invariant_preserved st0 req1 true (by decide) (by decide) ?_
  refine ⟨?_, ?_⟩ <;> intro x hx <;> simp [st0] at hx

/-- A successful (201) outcome of the order handler only arises on the
branch that deleted the products cache key. -/
theorem createOrder_created_cache (st : SysState) (req : OrderReq) (delOk : Bool)
    (oid : Nat) (t : Int)
    (h : (createOrder st req delOk).2 = .created oid t) :
    (createOrder st req delOk).1.cache = none := by
  cases hitems : req.items with
  | none => simp [createOrder, hitems] at h
  | some items =>
    cases hrun : runItems st.db.products st.db.nextOrderId items 0 [] with
    | error e => simp [createOrder, hitems, hrun] at h
    | ok pr =>
      obtain ⟨t0, rs⟩ := pr
      cases delOk with
      | false => simp [createOrder, hitems, hrun] at h
      | true => simp [createOrder, hitems, hrun]

/-- C9: every successfully placed order (201 outcome) leaves the cache key
absent, so the next product read misses the cache, queries the store, and
returns the current store rows instead of any pre-order snapshot. -/
theorem c9_commit_invalidates_cache (st : SysState) (req : OrderReq) (delOk : Bool)
    (st' : SysState) (oid : Nat) (t : Int)
    (h : createOrder st req delOk = (st', .created oid t)) :
    st'.cache = none ∧
    (getProducts st' true true).storeQueried = true ∧
    (getProducts st' true true).resp = .rows (storeQuery st'.db.products) := by
  have h1 : (createOrder st req delOk).1 = st' := by rw [h]
  have h2 : (createOrder st req delOk).2 = .created oid t := by rw [h]
  have hc : st'.cache = none := by
    rw [← h1]
    exact createOrder_created_cache st req delOk oid t h2
  refine ⟨hc, ?_, ?_⟩ <;> simp [getProducts, hc]

/-- C9 witness: after the successful order req1 against st0, the cache is
empty and the next read goes to the store. -/
theorem c9_witness :
    stAfter.cache = none ∧
    (getProducts stAfter true true).storeQueried = true ∧
    (getProducts stAfter true true).resp = .rows (storeQuery stAfter.db.products) :=
  c9_commit_invalidates_cache st0 req1 true stAfter 1 8997 (by rfl)

/-- C10: a request with an empty items list is not rejected: the handler
commits one Order with total 0 and no OrderItems and answers 201 with the
new order id and total 0 (assuming the post-commit cache delete succeeds). -/
theorem c10_empty_items_accepted (st : SysState) (req : OrderReq)
    (hitems : req.items = some []) :
    (createOrder st req true).1.db.orders =
      st.db.orders ++ [⟨st.db.nextOrderId, req.user_id, "pending", 0⟩] ∧
    (createOrder st req true).1.db.orderItems = st.db.orderItems ∧
    (createOrder st req true).2 = .created st.db.nextOrderId 0 ∧
    (createOrder st req true).2.status = 201 := by
  simp [createOrder, hitems, runItems, PostResult.status]

/-- C10 witness: the empty-items request against st0 yields 201 with
order id 1 and total 0. -/
theorem c10_witness : (createOrder st0 reqEmpty true).2 = .created 1 0 := by
  rw [(c10_empty_items_accepted st0 reqEmpty rfl).2.2.1]
  decide

end ECommerce
